import Mathlib

/-!
Verification of the secretchat matchmaking server (`src/server.js`).

The server keeps three in-memory JavaScript `Map`s:
  `users`        : userId -> { socketId, lastActive }      (Presence Registry)
  `waitingUsers` : userId -> { socketId, preferences, timestamp } (Waiting Queue)
  `activeChats`  : userId -> partnerId                     (Active Pairing Table)
and per-socket closure state `currentUserId`, set by the `register` handler.

We embed each `Map` as an insertion-ordered association list, because the
candidate scan in `findMatch` (`Array.from(waitingUsers.entries())` followed by
`.find`) depends on insertion order: `Map.set` on an existing key updates the
entry in place, on a fresh key appends, and `Map.delete` removes the entry.
-/

/-- Lookup in an insertion-ordered association list (JS `Map.get`). -/
def getEntry {α : Type} : List (String × α) → String → Option α
  | [], _ => none
  | p :: rest, k => if p.1 = k then some p.2 else getEntry rest k

/-- Key membership (JS `Map.has`). -/
def hasEntry {α : Type} : List (String × α) → String → Bool
  | [], _ => false
  | p :: rest, k => if p.1 = k then true else hasEntry rest k

/-- Insert or update (JS `Map.set`): an existing key keeps its position and
gets the new value; a fresh key is appended at the end. -/
def setEntry {α : Type} : List (String × α) → String → α → List (String × α)
  | [], k, v => [(k, v)]
  | p :: rest, k, v => if p.1 = k then (k, v) :: rest else p :: setEntry rest k v

/-- Removal (JS `Map.delete`). -/
def delEntry {α : Type} : List (String × α) → String → List (String × α)
  | [], _ => []
  | p :: rest, k => if p.1 = k then delEntry rest k else p :: delEntry rest k

theorem getEntry_setEntry_self {α : Type} (m : List (String × α)) (k : String) (v : α) :
    getEntry (setEntry m k v) k = some v := by
  induction m with
  | nil => simp [setEntry, getEntry]
  | cons p rest ih =>
    by_cases h : p.1 = k
    · simp [setEntry, h, getEntry]
    · simp [setEntry, h, getEntry, ih]

theorem getEntry_setEntry_ne {α : Type} (m : List (String × α)) (k k' : String) (v : α)
    (h : k' ≠ k) : getEntry (setEntry m k v) k' = getEntry m k' := by
  have h2 : ¬ (k = k') := fun hh => h hh.symm
  induction m with
  | nil => simp [setEntry, getEntry, h2]
  | cons p rest ih =>
    by_cases hp : p.1 = k
    · simp [setEntry, getEntry, hp, h2]
    · simp [setEntry, getEntry, hp, ih]

theorem getEntry_delEntry_self {α : Type} (m : List (String × α)) (k : String) :
    getEntry (delEntry m k) k = none := by
  induction m with
  | nil => simp [delEntry, getEntry]
  | cons p rest ih =>
    by_cases h : p.1 = k
    · simp [delEntry, h, ih]
    · simp [delEntry, h, getEntry, ih]

theorem getEntry_delEntry_ne {α : Type} (m : List (String × α)) (k k' : String)
    (h : k' ≠ k) : getEntry (delEntry m k) k' = getEntry m k' := by
  have h2 : ¬ (k = k') := fun hh => h hh.symm
  induction m with
  | nil => simp [delEntry]
  | cons p rest ih =>
    by_cases hp : p.1 = k
    · simp [delEntry, getEntry, hp, h2, ih]
    · simp [delEntry, getEntry, hp, ih]

theorem hasEntry_eq_isSome_getEntry {α : Type} (m : List (String × α)) (k : String) :
    hasEntry m k = (getEntry m k).isSome := by
  induction m with
  | nil => simp [hasEntry, getEntry]
  | cons p rest ih =>
    by_cases h : p.1 = k
    · simp [hasEntry, getEntry, h]
    · simp [hasEntry, getEntry, h, ih]

theorem getEntry_eq_none_of_hasEntry_false {α : Type} (m : List (String × α)) (k : String)
    (h : hasEntry m k = false) : getEntry m k = none := by
  have h2 := hasEntry_eq_isSome_getEntry m k
  rw [h] at h2
  cases hg : getEntry m k with
  | none => rfl
  | some v =>
    rw [hg] at h2
    simp at h2

theorem hasEntry_setEntry_self {α : Type} (m : List (String × α)) (k : String) (v : α) :
    hasEntry (setEntry m k v) k = true := by
  rw [hasEntry_eq_isSome_getEntry, getEntry_setEntry_self]
  rfl

theorem hasEntry_setEntry_ne {α : Type} (m : List (String × α)) (k k' : String) (v : α)
    (h : k' ≠ k) : hasEntry (setEntry m k v) k' = hasEntry m k' := by
  rw [hasEntry_eq_isSome_getEntry, getEntry_setEntry_ne m k k' v h,
    ← hasEntry_eq_isSome_getEntry]

theorem hasEntry_delEntry_self {α : Type} (m : List (String × α)) (k : String) :
    hasEntry (delEntry m k) k = false := by
  rw [hasEntry_eq_isSome_getEntry, getEntry_delEntry_self]
  rfl

theorem hasEntry_delEntry_ne {α : Type} (m : List (String × α)) (k k' : String)
    (h : k' ≠ k) : hasEntry (delEntry m k) k' = hasEntry m k' := by
  rw [hasEntry_eq_isSome_getEntry, getEntry_delEntry_ne m k k' h,
    ← hasEntry_eq_isSome_getEntry]

theorem hasEntry_true_of_mem {α : Type} (m : List (String × α)) (p : String × α)
    (h : p ∈ m) : hasEntry m p.1 = true := by
  induction m with
  | nil => cases h
  | cons q rest ih =>
    rcases List.mem_cons.mp h with h1 | h2
    · simp [hasEntry, h1]
    · by_cases hq : q.1 = p.1
      · simp [hasEntry, hq]
      · simp [hasEntry, hq, ih h2]

/-! ## Data model (from `src/server.js` lines 34-37 and handler payloads) -/

/-- A preference object as carried in `find_match` payloads and read by
`findMatch`: `preferred_gender`, the user's own `gender`, and `interests`.
Each field may be absent (JS `undefined`), hence `Option`. -/
structure Preferences where
  preferred_gender : Option String := none
  gender : Option String := none
  interests : Option (List String) := none
  deriving DecidableEq, Repr

/-- A `users` map entry: `{ socketId, lastActive }` (server.js line 52). -/
structure UserEntry where
  socketId : String
  lastActive : Nat
  deriving DecidableEq, Repr

/-- A `waitingUsers` map entry: `{ socketId, preferences, timestamp }`
(server.js line 85). The whole `preferences` value may be absent. -/
structure WaitingEntry where
  socketId : String
  preferences : Option Preferences
  timestamp : Nat
  deriving DecidableEq, Repr

/-- The three in-memory registries (server.js lines 35-37). -/
structure ServerState where
  users : List (String × UserEntry)
  waitingUsers : List (String × WaitingEntry)
  activeChats : List (String × String)
  deriving DecidableEq, Repr

/-- The server world: the shared registries plus, per socket, the closure
variable `currentUserId` (server.js line 41, written at line 51). Absence
from the list models `currentUserId = null`. -/
structure World where
  st : ServerState
  sessions : List (String × String)
  deriving DecidableEq, Repr

def World.initial : World := ⟨⟨[], [], []⟩, []⟩

/-- Events emitted by the server: acknowledgment callbacks and
`io.to(socket).emit(...)` notifications, in program order. -/
inductive OutEvent where
  | callbackOk (socket : String)
  | callbackErr (socket : String) (msg : String)
  | matchFound (socket : String) (partnerId : String)
  | chatEnded (socket : String) (reason : Option String)
  | receiveMessage (socket : String) (message : String)
  | partnerTyping (socket : String) (isTyping : Bool)
  deriving DecidableEq, Repr

/-- Inbound socket events (§6 of the spec; `socket.on(...)` handlers).
`now` stands for `new Date()` at handling time. Payload fields that can be
`undefined` are `Option`s; an empty string models any other falsy id. -/
inductive Event where
  | register (socket userId : String) (now : Nat)
  | find_match (socket userId : String) (preferences : Option Preferences) (now : Nat)
  | cancel_search (socket userId : String)
  | send_message (socket toUser message : String)
  | typing (socket : String) (partnerId : Option String) (isTyping : Bool)
  | end_chat (socket : String) (partnerId : Option String) (reason : Option String)
  | disconnect (socket : String)
  deriving DecidableEq, Repr

def msgUserIdRequired : String := "User ID is required"
def msgUserNotRegistered : String := "User not registered"
def msgAlreadyInChat : String := "Already in chat"
def msgInvalidMessageData : String := "Invalid message data"
def msgRecipientNotFound : String := "Recipient not found"
def reasonDisconnected : String := "disconnected"
def wildcard : String := "any"

/-! ## The matchmaker (`findMatch`, server.js lines 181-242) -/

/-- Which of `findMatch`'s return points was taken (the code returns
silently in every case; this labels the observable outcome). -/
inductive MatchOutcome where
  | notWaiting
  | noEligibleCandidates
  | matched (partnerId : String)
  deriving DecidableEq, Repr

structure MatchResult where
  st : ServerState
  emitted : List OutEvent
  outcome : MatchOutcome
  deriving DecidableEq, Repr

/-- JS truthiness of an optional string: `undefined` and `""` are falsy. -/
def truthyStr : Option String → Bool
  | none => false
  | some s => s ≠ ""

/-- `currentUser.preferences?.preferred_gender` (optional chaining). -/
def reqPreferredGender (e : WaitingEntry) : Option String :=
  match e.preferences with
  | none => none
  | some p => p.preferred_gender

/-- `match.preferences?.gender`. -/
def candGender (e : WaitingEntry) : Option String :=
  match e.preferences with
  | none => none
  | some p => p.gender

/-- `preferences?.interests`. -/
def entryInterests (e : WaitingEntry) : Option (List String) :=
  match e.preferences with
  | none => none
  | some p => p.interests

/-- Gender filter, server.js lines 202-209: active iff the requester's
`preferred_gender` is truthy and not `'any'`; then the candidate's `gender`
must be truthy and equal to it. -/
def genderFilterPasses (cur cand : WaitingEntry) : Bool :=
  match reqPreferredGender cur with
  | none => true
  | some pg =>
    if pg = "" then true
    else if pg = wildcard then true
    else
      match candGender cand with
      | none => false
      | some g => if g = "" then false else decide (g = pg)

/-- Interest filter, server.js lines 212-220: active iff the requester's
`interests` is a non-empty list not containing `'any'`; then the candidate's
`interests` must contain at least one of the requester's. -/
def interestFilterPasses (cur cand : WaitingEntry) : Bool :=
  match entryInterests cur with
  | none => true
  | some il =>
    if il.isEmpty || il.contains wildcard then
      true
    else
      match entryInterests cand with
      | none => false
      | some cl => cl.any (fun i => il.contains i)

/-- The predicate of the `.find` over `potentialMatches`
(server.js lines 195-223): skip candidates already in a chat, then apply
the two preference filters. -/
def eligibleCandidate (s : ServerState) (cur : WaitingEntry)
    (cand : String × WaitingEntry) : Bool :=
  !(hasEntry s.activeChats cand.1) &&
    genderFilterPasses cur cand.2 && interestFilterPasses cur cand.2

/-- `findMatch(userId)`, server.js lines 181-242: look the requester up in
the waiting list; scan the other waiting entries in insertion order for the
first eligible candidate; on success insert both pairing directions, remove
both from the waiting list and notify both sockets. -/
def findMatch (userId : String) (s : ServerState) : MatchResult :=
  match getEntry s.waitingUsers userId with
  | none => ⟨s, [], MatchOutcome.notWaiting⟩
  | some currentUser =>
    if (s.waitingUsers.filter (fun p => decide (p.1 ≠ userId))).isEmpty then
      ⟨s, [], MatchOutcome.noEligibleCandidates⟩
    else
      match (s.waitingUsers.filter (fun p => decide (p.1 ≠ userId))).find?
          (eligibleCandidate s currentUser) with
      | none => ⟨s, [], MatchOutcome.noEligibleCandidates⟩
      | some mp =>
        ⟨⟨s.users,
          delEntry (delEntry s.waitingUsers userId) mp.1,
          setEntry (setEntry s.activeChats userId mp.1) mp.1 userId⟩,
          [OutEvent.matchFound currentUser.socketId mp.1,
            OutEvent.matchFound mp.2.socketId userId],
          MatchOutcome.matched mp.1⟩

/-! ## Event handlers (server.js lines 39-179) -/

/-- One inbound event processed against the world; returns the new world and
the outputs in emission order. Each branch mirrors one `socket.on` handler. -/
def stepW (w : World) (e : Event) : World × List OutEvent :=
  match e with
  | Event.register sock uid now =>
    if uid = "" then
      (w, [OutEvent.callbackErr sock msgUserIdRequired])
    else
      (⟨⟨setEntry w.st.users uid ⟨sock, now⟩, w.st.waitingUsers, w.st.activeChats⟩,
        setEntry w.sessions sock uid⟩,
        [OutEvent.callbackOk sock])
  | Event.find_match sock uid prefs now =>
    if uid = "" then
      (w, [OutEvent.callbackErr sock msgUserIdRequired])
    else if !(hasEntry w.st.users uid) then
      (w, [OutEvent.callbackErr sock msgUserNotRegistered])
    else if hasEntry w.st.activeChats uid then
      (w, [OutEvent.callbackErr sock msgAlreadyInChat])
    else
      let s1 : ServerState :=
        ⟨w.st.users, setEntry w.st.waitingUsers uid ⟨sock, prefs, now⟩, w.st.activeChats⟩
      let r := findMatch uid s1
      (⟨r.st, w.sessions⟩, OutEvent.callbackOk sock :: r.emitted)
  | Event.cancel_search sock uid =>
    if uid = "" then
      (w, [OutEvent.callbackErr sock msgUserIdRequired])
    else
      (⟨⟨w.st.users, delEntry w.st.waitingUsers uid, w.st.activeChats⟩, w.sessions⟩,
        [OutEvent.callbackOk sock])
  | Event.send_message sock toUser message =>
    if toUser = "" || message = "" then
      (w, [OutEvent.callbackErr sock msgInvalidMessageData])
    else
      match getEntry w.st.users toUser with
      | none => (w, [OutEvent.callbackErr sock msgRecipientNotFound])
      | some e =>
        (w, [OutEvent.receiveMessage e.socketId message, OutEvent.callbackOk sock])
  | Event.typing _ partnerId isTyping =>
    if truthyStr partnerId then
      match partnerId with
      | some pid =>
        match getEntry w.st.users pid with
        | some e => (w, [OutEvent.partnerTyping e.socketId isTyping])
        | none => (w, [])
      | none => (w, [])
    else
      (w, [])
  | Event.end_chat sock partnerId reason =>
    match getEntry w.sessions sock, partnerId with
    | some cu, some pid =>
      if pid = "" || cu = "" then
        (w, [])
      else
        let evs :=
          match getEntry w.st.users pid with
          | some e => [OutEvent.chatEnded e.socketId reason]
          | none => []
        (⟨⟨w.st.users, w.st.waitingUsers, delEntry (delEntry w.st.activeChats cu) pid⟩,
          w.sessions⟩, evs)
    | _, _ => (w, [])
  | Event.disconnect sock =>
    match getEntry w.sessions sock with
    | none => (w, [])
    | some cu =>
      if cu = "" then
        (w, [])
      else
        let users1 := delEntry w.st.users cu
        let waiting1 := delEntry w.st.waitingUsers cu
        match getEntry w.st.activeChats cu with
        | some pid =>
          if pid = "" then
            (⟨⟨users1, waiting1, w.st.activeChats⟩, w.sessions⟩, [])
          else
            let evs :=
              match getEntry users1 pid with
              | some pe => [OutEvent.chatEnded pe.socketId (some reasonDisconnected)]
              | none => []
            (⟨⟨users1, waiting1, delEntry (delEntry w.st.activeChats cu) pid⟩,
              w.sessions⟩, evs)
        | none => (⟨⟨users1, waiting1, w.st.activeChats⟩, w.sessions⟩, [])

/-- Process a list of inbound events, collecting all outputs in order. -/
def runEvents : World → List Event → World × List OutEvent
  | w, [] => (w, [])
  | w, e :: es =>
    let r := stepW w e
    let r2 := runEvents r.1 es
    (r2.1, r.2 ++ r2.2)

/-- The world after a list of inbound events from the empty initial state. -/
def runFrom (w : World) (es : List Event) : World := (runEvents w es).1

/-! ## Effects of `findMatch` -/

/-- `findMatch` either leaves the registries unchanged (requester not
waiting, empty pool, or no eligible candidate) or commits a pairing with
some waiting candidate `mp.1 ≠ userId` that is not already in a chat,
inserting both pairing directions and removing both waiting entries. -/
theorem findMatch_cases (u : String) (s : ServerState) :
    (findMatch u s).st = s ∨
    ∃ mp : String × WaitingEntry,
      mp ∈ s.waitingUsers ∧ mp.1 ≠ u ∧ hasEntry s.activeChats mp.1 = false ∧
      (findMatch u s).st =
        ⟨s.users, delEntry (delEntry s.waitingUsers u) mp.1,
          setEntry (setEntry s.activeChats u mp.1) mp.1 u⟩ := by
  unfold findMatch
  split
  next =>
    left
    rfl
  next cu hg =>
    split
    next he =>
      left
      rfl
    next he =>
      split
      next hf =>
        left
        rfl
      next mp hf =>
        right
        have hmem2 := List.mem_filter.mp (List.mem_of_find?_eq_some hf)
        have hpred := List.find?_some hf
        have hne : mp.1 ≠ u := by simpa using hmem2.2
        have hchat : hasEntry s.activeChats mp.1 = false := by
          unfold eligibleCandidate at hpred
          simp [Bool.and_eq_true] at hpred
          exact hpred.1.1
        exact ⟨mp, hmem2.1, hne, hchat, rfl⟩

/-! ## Symmetry of the Active Pairing Table -/

/-- The pairing table maps `x` to `y` only if it maps `y` back to `x`. -/
def SymmetricChats (A : List (String × String)) : Prop :=
  ∀ x y, getEntry A x = some y → getEntry A y = some x

theorem symmetricChats_pairInsert (A : List (String × String)) (u m : String)
    (hS : SymmetricChats A) (hu : hasEntry A u = false)
    (hm : hasEntry A m = false) (hum : m ≠ u) :
    SymmetricChats (setEntry (setEntry A u m) m u) := by
  intro x y hxy
  have hgu : getEntry (setEntry (setEntry A u m) m u) u = some m := by
    rw [getEntry_setEntry_ne _ _ _ _ (Ne.symm hum), getEntry_setEntry_self]
  have hgm : getEntry (setEntry (setEntry A u m) m u) m = some u :=
    getEntry_setEntry_self _ _ _
  by_cases hx : x = m
  · subst hx
    rw [hgm] at hxy
    injection hxy with h3
    subst h3
    exact hgu
  · by_cases hx2 : x = u
    · subst hx2
      rw [hgu] at hxy
      injection hxy with h3
      subst h3
      exact hgm
    · have hxa : getEntry A x = some y := by
        rw [getEntry_setEntry_ne _ _ _ _ hx, getEntry_setEntry_ne _ _ _ _ hx2] at hxy
        exact hxy
      have hya := hS x y hxa
      have hyu : y ≠ u := by
        intro hy
        rw [hy, getEntry_eq_none_of_hasEntry_false A u hu] at hya
        cases hya
      have hym : y ≠ m := by
        intro hy
        rw [hy, getEntry_eq_none_of_hasEntry_false A m hm] at hya
        cases hya
      rw [getEntry_setEntry_ne _ _ _ _ hym, getEntry_setEntry_ne _ _ _ _ hyu]
      exact hya

theorem symmetricChats_pairDelete (A : List (String × String)) (u p : String)
    (hS : SymmetricChats A) (hup : getEntry A u = some p) :
    SymmetricChats (delEntry (delEntry A u) p) := by
  intro x y hxy
  by_cases hx : x = p
  · rw [hx, getEntry_delEntry_self] at hxy
    cases hxy
  · by_cases hx2 : x = u
    · subst hx2
      rw [getEntry_delEntry_ne _ _ _ hx, getEntry_delEntry_self] at hxy
      cases hxy
    · have hxa : getEntry A x = some y := by
        rw [getEntry_delEntry_ne _ _ _ hx, getEntry_delEntry_ne _ _ _ hx2] at hxy
        exact hxy
      have hya := hS x y hxa
      have hpu := hS u p hup
      have hyu : y ≠ u := by
        intro hy
        rw [hy, hup] at hya
        injection hya with h3
        exact hx h3.symm
      have hyp : y ≠ p := by
        intro hy
        rw [hy, hpu] at hya
        injection hya with h3
        exact hx2 h3.symm
      rw [getEntry_delEntry_ne _ _ _ hyp, getEntry_delEntry_ne _ _ _ hyu]
      exact hya

/-- The operations quantified over by the symmetry property: register,
find_match, cancel_search and disconnect. -/
def coreEvent : Event → Bool
  | Event.register _ _ _ => true
  | Event.find_match _ _ _ _ => true
  | Event.cancel_search _ _ => true
  | Event.disconnect _ => true
  | _ => false

theorem stepW_preserves_symmetricChats (w : World) (e : Event)
    (hc : coreEvent e = true) (hS : SymmetricChats w.st.activeChats) :
    SymmetricChats (stepW w e).1.st.activeChats := by
  cases e with
  | register sock uid now =>
    by_cases h1 : uid = ""
    · simpa [stepW, h1] using hS
    · simpa [stepW, h1] using hS
  | find_match sock uid prefs now =>
    by_cases h1 : uid = ""
    · simpa [stepW, h1] using hS
    · by_cases h2 : hasEntry w.st.users uid
      · by_cases h3 : hasEntry w.st.activeChats uid
        · simpa [stepW, h1, h2, h3] using hS
        · have hu : hasEntry w.st.activeChats uid = false := by
            cases hb : hasEntry w.st.activeChats uid
            · rfl
            · exact absurd hb h3
          rcases findMatch_cases uid
              ⟨w.st.users, setEntry w.st.waitingUsers uid ⟨sock, prefs, now⟩,
                w.st.activeChats⟩ with hsame | ⟨mp, _, hne, hchat, heq⟩
          · simp only [stepW, h1, h2, h3]
            simp only [Bool.not_true, Bool.false_eq_true, if_false, if_neg h1,
              if_neg h3]
            simpa [hsame] using hS
          · simp only [stepW, h1, h2, h3]
            simp only [Bool.not_true, Bool.false_eq_true, if_false, if_neg h1,
              if_neg h3]
            simp only [heq]
            exact symmetricChats_pairInsert w.st.activeChats uid mp.1 hS hu hchat hne
      · simpa [stepW, h1, h2] using hS
  | cancel_search sock uid =>
    by_cases h1 : uid = ""
    · simpa [stepW, h1] using hS
    · simpa [stepW, h1] using hS
  | send_message sock toUser message =>
    simp [coreEvent] at hc
  | typing sock partnerId isTyping =>
    simp [coreEvent] at hc
  | end_chat sock partnerId reason =>
    simp [coreEvent] at hc
  | disconnect sock =>
    cases hses : getEntry w.sessions sock with
    | none => simpa [stepW, hses] using hS
    | some cu =>
      by_cases hcu : cu = ""
      · simpa [stepW, hses, hcu] using hS
      · cases hpid : getEntry w.st.activeChats cu with
        | none => simpa [stepW, hses, hcu, hpid] using hS
        | some pid =>
          by_cases hpe : pid = ""
          · simpa [stepW, hses, hcu, hpid, hpe] using hS
          · have hdel := symmetricChats_pairDelete w.st.activeChats cu pid hS hpid
            simpa [stepW, hses, hcu, hpid, hpe] using hdel

theorem runFrom_cons (w : World) (e : Event) (es : List Event) :
    runFrom w (e :: es) = runFrom (stepW w e).1 es := rfl

theorem runFrom_preserves_symmetricChats (es : List Event) :
    ∀ w : World, (∀ e ∈ es, coreEvent e = true) →
      SymmetricChats w.st.activeChats →
      SymmetricChats (runFrom w es).st.activeChats := by
  induction es with
  | nil =>
    intro w _ hS
    simpa [runFrom, runEvents] using hS
  | cons e rest ih =>
    intro w hall hS
    have h1 : coreEvent e = true := hall e (List.mem_cons_self e rest)
    have h2 : ∀ x ∈ rest, coreEvent x = true :=
      fun x hx => hall x (List.mem_cons_of_mem e hx)
    rw [runFrom_cons]
    exact ih (stepW w e).1 h2 (stepW_preserves_symmetricChats w e h1 hS)

/-! ## Branch characterizations of `stepW` -/

theorem hasEntry_of_delEntry_true {α : Type} (m : List (String × α)) (k v : String)
    (h : hasEntry (delEntry m k) v = true) : hasEntry m v = true ∧ v ≠ k := by
  by_cases hv : v = k
  · subst hv
    rw [hasEntry_delEntry_self] at h
    cases h
  · rw [hasEntry_delEntry_ne m k v hv] at h
    exact ⟨h, hv⟩

theorem hasEntry_of_setEntry_true {α : Type} (m : List (String × α)) (k v : String) (x : α)
    (h : hasEntry (setEntry m k x) v = true) : v = k ∨ hasEntry m v = true := by
  by_cases hv : v = k
  · left
    exact hv
  · right
    rw [hasEntry_setEntry_ne m k v x hv] at h
    exact h

theorem hasEntry_setEntry_mono {α : Type} (m : List (String × α)) (k v : String) (x : α)
    (h : hasEntry m v = true) : hasEntry (setEntry m k x) v = true := by
  by_cases hv : v = k
  · subst hv
    exact hasEntry_setEntry_self m v x
  · rw [hasEntry_setEntry_ne m k v x hv]
    exact h

theorem getEntry_some_of_delEntry {α : Type} (m : List (String × α)) (k x : String) (y : α)
    (h : getEntry (delEntry m k) x = some y) : getEntry m x = some y ∧ x ≠ k := by
  by_cases hx : x = k
  · subst hx
    rw [getEntry_delEntry_self] at h
    cases h
  · rw [getEntry_delEntry_ne m k x hx] at h
    exact ⟨h, hx⟩

theorem stepW_register (w : World) (sock uid : String) (now : Nat) (h1 : uid ≠ "") :
    stepW w (Event.register sock uid now) =
      (⟨⟨setEntry w.st.users uid ⟨sock, now⟩, w.st.waitingUsers, w.st.activeChats⟩,
        setEntry w.sessions sock uid⟩, [OutEvent.callbackOk sock]) := by
  simp [stepW, h1]

theorem stepW_find_match_notRegistered (w : World) (sock uid : String)
    (prefs : Option Preferences) (now : Nat) (h1 : uid ≠ "")
    (h2 : hasEntry w.st.users uid = false) :
    stepW w (Event.find_match sock uid prefs now) =
      (w, [OutEvent.callbackErr sock msgUserNotRegistered]) := by
  simp [stepW, h1, h2]

theorem stepW_find_match_alreadyInChat (w : World) (sock uid : String)
    (prefs : Option Preferences) (now : Nat) (h1 : uid ≠ "")
    (h2 : hasEntry w.st.users uid = true) (h3 : hasEntry w.st.activeChats uid = true) :
    stepW w (Event.find_match sock uid prefs now) =
      (w, [OutEvent.callbackErr sock msgAlreadyInChat]) := by
  simp [stepW, h1, h2, h3]

theorem stepW_find_match_main (w : World) (sock uid : String)
    (prefs : Option Preferences) (now : Nat) (h1 : uid ≠ "")
    (h2 : hasEntry w.st.users uid = true) (h3 : hasEntry w.st.activeChats uid = false) :
    stepW w (Event.find_match sock uid prefs now) =
      (⟨(findMatch uid ⟨w.st.users, setEntry w.st.waitingUsers uid ⟨sock, prefs, now⟩,
          w.st.activeChats⟩).st, w.sessions⟩,
        OutEvent.callbackOk sock ::
          (findMatch uid ⟨w.st.users, setEntry w.st.waitingUsers uid ⟨sock, prefs, now⟩,
            w.st.activeChats⟩).emitted) := by
  simp [stepW, h1, h2, h3]

theorem stepW_cancel_search (w : World) (sock uid : String) (h1 : uid ≠ "") :
    stepW w (Event.cancel_search sock uid) =
      (⟨⟨w.st.users, delEntry w.st.waitingUsers uid, w.st.activeChats⟩, w.sessions⟩,
        [OutEvent.callbackOk sock]) := by
  simp [stepW, h1]

theorem stepW_end_chat_main (w : World) (sock cu pid : String) (reason : Option String)
    (hses : getEntry w.sessions sock = some cu) (hcu : cu ≠ "") (hpe : pid ≠ "") :
    stepW w (Event.end_chat sock (some pid) reason) =
      (⟨⟨w.st.users, w.st.waitingUsers, delEntry (delEntry w.st.activeChats cu) pid⟩,
        w.sessions⟩,
        match getEntry w.st.users pid with
        | some e => [OutEvent.chatEnded e.socketId reason]
        | none => []) := by
  simp [stepW, hses, hcu, hpe]

theorem stepW_disconnect_unpaired (w : World) (sock cu : String)
    (hses : getEntry w.sessions sock = some cu) (hcu : cu ≠ "")
    (hpid : getEntry w.st.activeChats cu = none) :
    stepW w (Event.disconnect sock) =
      (⟨⟨delEntry w.st.users cu, delEntry w.st.waitingUsers cu, w.st.activeChats⟩,
        w.sessions⟩, []) := by
  simp [stepW, hses, hcu, hpid]

theorem stepW_disconnect_emptyPartner (w : World) (sock cu : String)
    (hses : getEntry w.sessions sock = some cu) (hcu : cu ≠ "")
    (hpid : getEntry w.st.activeChats cu = some "") :
    stepW w (Event.disconnect sock) =
      (⟨⟨delEntry w.st.users cu, delEntry w.st.waitingUsers cu, w.st.activeChats⟩,
        w.sessions⟩, []) := by
  simp [stepW, hses, hcu, hpid]

theorem stepW_disconnect_paired (w : World) (sock cu pid : String)
    (hses : getEntry w.sessions sock = some cu) (hcu : cu ≠ "")
    (hpid : getEntry w.st.activeChats cu = some pid) (hpe : pid ≠ "") :
    stepW w (Event.disconnect sock) =
      (⟨⟨delEntry w.st.users cu, delEntry w.st.waitingUsers cu,
          delEntry (delEntry w.st.activeChats cu) pid⟩, w.sessions⟩,
        match getEntry (delEntry w.st.users cu) pid with
        | some pe => [OutEvent.chatEnded pe.socketId (some reasonDisconnected)]
        | none => []) := by
  simp [stepW, hses, hcu, hpid, hpe]

/-! ## Reachability invariants -/

/-- No user id is simultaneously a Waiting Queue key and an Active Pairing
Table key. -/
def NoOverlap (s : ServerState) : Prop :=
  ∀ v, hasEntry s.waitingUsers v = true → hasEntry s.activeChats v = false

/-- Every Waiting Queue key and every Active Pairing Table key is a
registered, non-empty user id, and every pairing value is non-empty. -/
def GoodState (s : ServerState) : Prop :=
  (∀ v, hasEntry s.waitingUsers v = true → hasEntry s.users v = true ∧ v ≠ "") ∧
  (∀ v, hasEntry s.activeChats v = true → hasEntry s.users v = true ∧ v ≠ "") ∧
  (∀ x y, getEntry s.activeChats x = some y → y ≠ "")

theorem hasEntry_false_of_true_imp {α : Type} {m : List (String × α)} {v : String}
    (h : hasEntry m v = true → False) : hasEntry m v = false := by
  cases hb : hasEntry m v
  · rfl
  · exact absurd (h hb) (fun x => x)

theorem stepW_preserves_noOverlap (w : World) (e : Event)
    (hS : NoOverlap w.st) : NoOverlap (stepW w e).1.st := by
  cases e with
  | register sock uid now =>
    by_cases h1 : uid = ""
    · simpa [stepW, h1] using hS
    · rw [stepW_register w sock uid now h1]
      exact hS
  | find_match sock uid prefs now =>
    by_cases h1 : uid = ""
    · simpa [stepW, h1] using hS
    · cases h2 : hasEntry w.st.users uid with
      | false =>
        rw [stepW_find_match_notRegistered w sock uid prefs now h1 h2]
        exact hS
      | true =>
        cases h3 : hasEntry w.st.activeChats uid with
        | true =>
          rw [stepW_find_match_alreadyInChat w sock uid prefs now h1 h2 h3]
          exact hS
        | false =>
          rw [stepW_find_match_main w sock uid prefs now h1 h2 h3]
          rcases findMatch_cases uid
              ⟨w.st.users, setEntry w.st.waitingUsers uid ⟨sock, prefs, now⟩,
                w.st.activeChats⟩ with hsame | ⟨mp, _, hne, hchat, heq⟩
          · rw [hsame]
            intro v hv
            rcases hasEntry_of_setEntry_true _ _ _ _ hv with hveq | hvw
            · rw [hveq]
              exact h3
            · exact hS v hvw
          · rw [heq]
            intro v hv
            rcases hasEntry_of_delEntry_true _ _ _ hv with ⟨hv2, hvm⟩
            rcases hasEntry_of_delEntry_true _ _ _ hv2 with ⟨hv3, hvu⟩
            rcases hasEntry_of_setEntry_true _ _ _ _ hv3 with hveq | hvw
            · exact absurd hveq hvu
            · rw [hasEntry_setEntry_ne _ _ _ _ hvm, hasEntry_setEntry_ne _ _ _ _ hvu]
              exact hS v hvw
  | cancel_search sock uid =>
    by_cases h1 : uid = ""
    · simpa [stepW, h1] using hS
    · rw [stepW_cancel_search w sock uid h1]
      intro v hv
      exact hS v (hasEntry_of_delEntry_true _ _ _ hv).1
  | send_message sock toUser message =>
    by_cases h1 : toUser = "" ∨ message = ""
    · rcases h1 with h1 | h1 <;> simpa [stepW, h1] using hS
    · push_neg at h1
      cases hg : getEntry w.st.users toUser with
      | none => simpa [stepW, h1.1, h1.2, hg] using hS
      | some e => simpa [stepW, h1.1, h1.2, hg] using hS
  | typing sock partnerId isTyping =>
    cases partnerId with
    | none => simpa [stepW] using hS
    | some pid =>
      by_cases h1 : pid = ""
      · simpa [stepW, truthyStr, h1] using hS
      · cases hg : getEntry w.st.users pid with
        | none => simpa [stepW, truthyStr, h1, hg] using hS
        | some e => simpa [stepW, truthyStr, h1, hg] using hS
  | end_chat sock partnerId reason =>
    cases hses : getEntry w.sessions sock with
    | none => simpa [stepW, hses] using hS
    | some cu =>
      cases partnerId with
      | none => simpa [stepW, hses] using hS
      | some pid =>
        by_cases hpe : pid = ""
        · simpa [stepW, hses, hpe] using hS
        · by_cases hcu : cu = ""
          · simpa [stepW, hses, hpe, hcu] using hS
          · rw [stepW_end_chat_main w sock cu pid reason hses hcu hpe]
            intro v hv
            apply hasEntry_false_of_true_imp
            intro hchat
            rcases hasEntry_of_delEntry_true _ _ _ hchat with ⟨hc2, _⟩
            rcases hasEntry_of_delEntry_true _ _ _ hc2 with ⟨hc3, _⟩
            rw [hS v hv] at hc3
            cases hc3
  | disconnect sock =>
    cases hses : getEntry w.sessions sock with
    | none => simpa [stepW, hses] using hS
    | some cu =>
      by_cases hcu : cu = ""
      · simpa [stepW, hses, hcu] using hS
      · cases hpid : getEntry w.st.activeChats cu with
        | none =>
          rw [stepW_disconnect_unpaired w sock cu hses hcu hpid]
          intro v hv
          exact hS v (hasEntry_of_delEntry_true _ _ _ hv).1
        | some pid =>
          by_cases hpe : pid = ""
          · subst hpe
            rw [stepW_disconnect_emptyPartner w sock cu hses hcu hpid]
            intro v hv
            exact hS v (hasEntry_of_delEntry_true _ _ _ hv).1
          · rw [stepW_disconnect_paired w sock cu pid hses hcu hpid hpe]
            intro v hv
            apply hasEntry_false_of_true_imp
            intro hchat
            rcases hasEntry_of_delEntry_true _ _ _ hchat with ⟨hc2, _⟩
            rcases hasEntry_of_delEntry_true _ _ _ hc2 with ⟨hc3, _⟩
            rw [hS v (hasEntry_of_delEntry_true _ _ _ hv).1] at hc3
            cases hc3

theorem getEntry_some_of_setEntry {α : Type} (m : List (String × α)) (k a : String)
    (x0 : α) (y : α) (h : getEntry (setEntry m k x0) a = some y) :
    (a = k ∧ y = x0) ∨ (a ≠ k ∧ getEntry m a = some y) := by
  by_cases ha : a = k
  · subst ha
    rw [getEntry_setEntry_self] at h
    injection h with h2
    exact Or.inl ⟨rfl, h2.symm⟩
  · rw [getEntry_setEntry_ne m k a x0 ha] at h
    exact Or.inr ⟨ha, h⟩

theorem stepW_preserves_goodState (w : World) (e : Event)
    (hG : GoodState w.st) : GoodState (stepW w e).1.st := by
  obtain ⟨hw, hc, hv⟩ := hG
  cases e with
  | register sock uid now =>
    by_cases h1 : uid = ""
    · simpa [stepW, h1] using ⟨hw, hc, hv⟩
    · rw [stepW_register w sock uid now h1]
      refine ⟨fun v hvw => ?_, fun v hvc => ?_, hv⟩
      · exact ⟨hasEntry_setEntry_mono _ _ _ _ (hw v hvw).1, (hw v hvw).2⟩
      · exact ⟨hasEntry_setEntry_mono _ _ _ _ (hc v hvc).1, (hc v hvc).2⟩
  | find_match sock uid prefs now =>
    by_cases h1 : uid = ""
    · simpa [stepW, h1] using ⟨hw, hc, hv⟩
    · cases h2 : hasEntry w.st.users uid with
      | false =>
        rw [stepW_find_match_notRegistered w sock uid prefs now h1 h2]
        exact ⟨hw, hc, hv⟩
      | true =>
        cases h3 : hasEntry w.st.activeChats uid with
        | true =>
          rw [stepW_find_match_alreadyInChat w sock uid prefs now h1 h2 h3]
          exact ⟨hw, hc, hv⟩
        | false =>
          rw [stepW_find_match_main w sock uid prefs now h1 h2 h3]
          have hw1 : ∀ v, hasEntry (setEntry w.st.waitingUsers uid
              ⟨sock, prefs, now⟩) v = true → hasEntry w.st.users v = true ∧ v ≠ "" := by
            intro v hvw
            rcases hasEntry_of_setEntry_true _ _ _ _ hvw with hveq | hvw2
            · subst hveq
              exact ⟨h2, h1⟩
            · exact hw v hvw2
          rcases findMatch_cases uid
              ⟨w.st.users, setEntry w.st.waitingUsers uid ⟨sock, prefs, now⟩,
                w.st.activeChats⟩ with hsame | ⟨mp, hmem, hne, hchat, heq⟩
          · rw [hsame]
            exact ⟨hw1, hc, hv⟩
          · rw [heq]
            have hmp := hw1 mp.1 (hasEntry_true_of_mem _ mp hmem)
            refine ⟨fun v hvw => ?_, fun v hvc => ?_, fun x y hxy => ?_⟩
            · exact hw1 v (hasEntry_of_delEntry_true _ _ _
                (hasEntry_of_delEntry_true _ _ _ hvw).1).1
            · rcases hasEntry_of_setEntry_true _ _ _ _ hvc with hveq | hvc2
              · subst hveq
                exact hmp
              · rcases hasEntry_of_setEntry_true _ _ _ _ hvc2 with hveq | hvc3
                · subst hveq
                  exact ⟨h2, h1⟩
                · exact hc v hvc3
            · rcases getEntry_some_of_setEntry _ _ _ _ _ hxy with ⟨_, hy⟩ | ⟨_, hxy2⟩
              · subst hy
                exact h1
              · rcases getEntry_some_of_setEntry _ _ _ _ _ hxy2 with ⟨_, hy⟩ | ⟨_, hxy3⟩
                · subst hy
                  exact hmp.2
                · exact hv x y hxy3
  | cancel_search sock uid =>
    by_cases h1 : uid = ""
    · simpa [stepW, h1] using ⟨hw, hc, hv⟩
    · rw [stepW_cancel_search w sock uid h1]
      exact ⟨fun v hvw => hw v (hasEntry_of_delEntry_true _ _ _ hvw).1, hc, hv⟩
  | send_message sock toUser message =>
    by_cases h1 : toUser = "" ∨ message = ""
    · rcases h1 with h1 | h1 <;> simpa [stepW, h1] using ⟨hw, hc, hv⟩
    · push_neg at h1
      cases hg : getEntry w.st.users toUser with
      | none => simpa [stepW, h1.1, h1.2, hg] using ⟨hw, hc, hv⟩
      | some e => simpa [stepW, h1.1, h1.2, hg] using ⟨hw, hc, hv⟩
  | typing sock partnerId isTyping =>
    cases partnerId with
    | none => simpa [stepW] using ⟨hw, hc, hv⟩
    | some pid =>
      by_cases h1 : pid = ""
      · simpa [stepW, truthyStr, h1] using ⟨hw, hc, hv⟩
      · cases hg : getEntry w.st.users pid with
        | none => simpa [stepW, truthyStr, h1, hg] using ⟨hw, hc, hv⟩
        | some e => simpa [stepW, truthyStr, h1, hg] using ⟨hw, hc, hv⟩
  | end_chat sock partnerId reason =>
    cases hses : getEntry w.sessions sock with
    | none => simpa [stepW, hses] using ⟨hw, hc, hv⟩
    | some cu =>
      cases partnerId with
      | none => simpa [stepW, hses] using ⟨hw, hc, hv⟩
      | some pid =>
        by_cases hpe : pid = ""
        · simpa [stepW, hses, hpe] using ⟨hw, hc, hv⟩
        · by_cases hcu : cu = ""
          · simpa [stepW, hses, hpe, hcu] using ⟨hw, hc, hv⟩
          · rw [stepW_end_chat_main w sock cu pid reason hses hcu hpe]
            refine ⟨hw, fun v hvc => ?_, fun x y hxy => ?_⟩
            · exact hc v (hasEntry_of_delEntry_true _ _ _
                (hasEntry_of_delEntry_true _ _ _ hvc).1).1
            · exact hv x y (getEntry_some_of_delEntry _ _ _ _
                (getEntry_some_of_delEntry _ _ _ _ hxy).1).1
  | disconnect sock =>
    cases hses : getEntry w.sessions sock with
    | none => simpa [stepW, hses] using ⟨hw, hc, hv⟩
    | some cu =>
      by_cases hcu : cu = ""
      · simpa [stepW, hses, hcu] using ⟨hw, hc, hv⟩
      · cases hpid : getEntry w.st.activeChats cu with
        | none =>
          rw [stepW_disconnect_unpaired w sock cu hses hcu hpid]
          refine ⟨fun v hvw => ?_, fun v hvc => ?_, hv⟩
          · rcases hasEntry_of_delEntry_true _ _ _ hvw with ⟨hvw2, hvcu⟩
            rcases hw v hvw2 with ⟨hu, hne⟩
            rw [hasEntry_delEntry_ne _ _ _ hvcu]
            exact ⟨hu, hne⟩
          · have hvcu : v ≠ cu := by
              intro hh
              subst hh
              rw [hasEntry_eq_isSome_getEntry, hpid] at hvc
              cases hvc
            rcases hc v hvc with ⟨hu, hne⟩
            rw [hasEntry_delEntry_ne _ _ _ hvcu]
            exact ⟨hu, hne⟩
        | some pid =>
          by_cases hpe : pid = ""
          · subst hpe
            exact absurd rfl (hv cu "" hpid)
          · rw [stepW_disconnect_paired w sock cu pid hses hcu hpid hpe]
            refine ⟨fun v hvw => ?_, fun v hvc => ?_, fun x y hxy => ?_⟩
            · rcases hasEntry_of_delEntry_true _ _ _ hvw with ⟨hvw2, hvcu⟩
              rcases hw v hvw2 with ⟨hu, hne⟩
              rw [hasEntry_delEntry_ne _ _ _ hvcu]
              exact ⟨hu, hne⟩
            · rcases hasEntry_of_delEntry_true _ _ _ hvc with ⟨hvc2, hvp⟩
              rcases hasEntry_of_delEntry_true _ _ _ hvc2 with ⟨hvc3, hvcu⟩
              rcases hc v hvc3 with ⟨hu, hne⟩
              rw [hasEntry_delEntry_ne _ _ _ hvcu]
              exact ⟨hu, hne⟩
            · exact hv x y (getEntry_some_of_delEntry _ _ _ _
                (getEntry_some_of_delEntry _ _ _ _ hxy).1).1

theorem runFrom_noOverlap (es : List Event) :
    ∀ w : World, NoOverlap w.st → NoOverlap (runFrom w es).st := by
  induction es with
  | nil =>
    intro w hS
    simpa [runFrom, runEvents] using hS
  | cons e rest ih =>
    intro w hS
    rw [runFrom_cons]
    exact ih (stepW w e).1 (stepW_preserves_noOverlap w e hS)

theorem runFrom_goodState (es : List Event) :
    ∀ w : World, GoodState w.st → GoodState (runFrom w es).st := by
  induction es with
  | nil =>
    intro w hG
    simpa [runFrom, runEvents] using hG
  | cons e rest ih =>
    intro w hG
    rw [runFrom_cons]
    exact ih (stepW w e).1 (stepW_preserves_goodState w e hG)

theorem initial_noOverlap : NoOverlap World.initial.st := by
  intro v hv
  cases hv

theorem initial_goodState : GoodState World.initial.st := by
  refine ⟨fun v hv => ?_, fun v hv => ?_, fun x y hxy => ?_⟩
  · cases hv
  · cases hv
  · cases hxy

theorem initial_symmetricChats : SymmetricChats World.initial.st.activeChats := by
  intro x y h
  cases h

/-! ## Claims -/

def uA : String := "A"
def uB : String := "B"
def uC : String := "C"
def uZ : String := "zed"
def sockA : String := "sA"
def sockB : String := "sB"
def sockC : String := "sC"
def sock9 : String := "s9"

/-- A trace that registers users A and B and pairs them via two wildcard
`find_match` requests. -/
def tracePair : List Event :=
  [Event.register sockA uA 0, Event.register sockB uB 1,
    Event.find_match sockA uA none 2, Event.find_match sockB uB none 3]

/-- A trace that leaves user A registered and waiting, unmatched. -/
def traceWaiting : List Event :=
  [Event.register sockA uA 0, Event.find_match sockA uA none 1]

/-- C1: for every sequence of register, find_match, cancel_search and
disconnect operations starting from the empty state, the Active Pairing
Table is symmetric at every observation point: user X maps to user Y iff
Y maps to X. -/
theorem C1_pairing_table_symmetric (es : List Event)
    (hcore : ∀ e ∈ es, coreEvent e = true) (x y : String) :
    getEntry (runFrom World.initial es).st.activeChats x = some y ↔
      getEntry (runFrom World.initial es).st.activeChats y = some x := by
  have hS := runFrom_preserves_symmetricChats es World.initial hcore initial_symmetricChats
  exact ⟨fun h => hS x y h, fun h => hS y x h⟩

theorem C1_pairing_table_symmetric_witness :
    (∀ e ∈ tracePair, coreEvent e = true) ∧
      (getEntry (runFrom World.initial tracePair).st.activeChats uA = some uB ↔
        getEntry (runFrom World.initial tracePair).st.activeChats uB = some uA) :=
  ⟨by decide, C1_pairing_table_symmetric tracePair (by decide) uA uB⟩

/-- C2: in every state reachable by any sequence of inbound events from the
empty state, no user id is simultaneously a Waiting Queue key and an Active
Pairing Table key. -/
theorem C2_no_waiting_and_paired (es : List Event) (u : String)
    (hw : hasEntry (runFrom World.initial es).st.waitingUsers u = true) :
    hasEntry (runFrom World.initial es).st.activeChats u = false :=
  runFrom_noOverlap es World.initial initial_noOverlap u hw

theorem C2_no_waiting_and_paired_witness :
    hasEntry (runFrom World.initial traceWaiting).st.waitingUsers uA = true ∧
      hasEntry (runFrom World.initial traceWaiting).st.activeChats uA = false :=
  ⟨by decide, C2_no_waiting_and_paired traceWaiting uA (by decide)⟩

/-- C6: in every reachable state, `find_match` for a (non-empty) user id
with no Presence Registry entry is rejected with "User not registered", and
`find_match` for a user id holding a Pairing is rejected with "Already in
chat"; in both cases the whole world — all three registries and the session
table — is returned unchanged. (In a reachable state a pairing key is always
registered and non-empty, so the second case needs no extra hypotheses.) -/
theorem C6_find_match_rejections (es : List Event) (sock u : String)
    (prefs : Option Preferences) (now : Nat) :
    (u ≠ "" → hasEntry (runFrom World.initial es).st.users u = false →
      stepW (runFrom World.initial es) (Event.find_match sock u prefs now) =
        (runFrom World.initial es, [OutEvent.callbackErr sock msgUserNotRegistered])) ∧
    (hasEntry (runFrom World.initial es).st.activeChats u = true →
      stepW (runFrom World.initial es) (Event.find_match sock u prefs now) =
        (runFrom World.initial es, [OutEvent.callbackErr sock msgAlreadyInChat])) := by
  constructor
  · intro hne hreg
    exact stepW_find_match_notRegistered _ sock u prefs now hne hreg
  · intro hchat
    have hG := runFrom_goodState es World.initial initial_goodState
    rcases hG.2.1 u hchat with ⟨hu, hne⟩
    exact stepW_find_match_alreadyInChat _ sock u prefs now hne hu hchat

theorem C6_find_match_rejections_witness :
    stepW (runFrom World.initial tracePair) (Event.find_match sock9 uZ none 5) =
        (runFrom World.initial tracePair,
          [OutEvent.callbackErr sock9 msgUserNotRegistered]) ∧
      stepW (runFrom World.initial tracePair) (Event.find_match sock9 uA none 5) =
        (runFrom World.initial tracePair,
          [OutEvent.callbackErr sock9 msgAlreadyInChat]) :=
  ⟨(C6_find_match_rejections tracePair sock9 uZ none 5).1 (by decide) (by decide),
    (C6_find_match_rejections tracePair sock9 uA none 5).2 (by decide)⟩

def genderMale : String := "male"
def genderFemale : String := "female"
def reasonUserLeft : String := "user_left"

/-- Number of entries under a key (used to state non-duplication). -/
def countKey {α : Type} : List (String × α) → String → Nat
  | [], _ => 0
  | p :: rest, k => if p.1 = k then countKey rest k + 1 else countKey rest k

theorem countKey_setEntry_of_hasEntry {α : Type} (m : List (String × α)) (k : String)
    (v : α) (h : hasEntry m k = true) : countKey (setEntry m k v) k = countKey m k := by
  induction m with
  | nil => cases h
  | cons p rest ih =>
    by_cases hp : p.1 = k
    · simp [setEntry, countKey, hp]
    · have h2 : hasEntry rest k = true := by simpa [hasEntry, hp] using h
      simp [setEntry, countKey, hp, ih h2]

theorem countKey_delEntry_self {α : Type} (m : List (String × α)) (k : String) :
    countKey (delEntry m k) k = 0 := by
  induction m with
  | nil => rfl
  | cons p rest ih =>
    by_cases hp : p.1 = k
    · simp [delEntry, hp, ih]
    · simp [delEntry, countKey, hp, ih]

theorem countKey_delEntry_le {α : Type} (m : List (String × α)) (k' k : String) :
    countKey (delEntry m k') k ≤ countKey m k := by
  induction m with
  | nil => exact Nat.le_refl 0
  | cons p rest ih =>
    show countKey (if p.1 = k' then delEntry rest k' else p :: delEntry rest k') k ≤
      (if p.1 = k then countKey rest k + 1 else countKey rest k)
    by_cases hp : p.1 = k'
    · rw [if_pos hp]
      by_cases hpk : p.1 = k
      · rw [if_pos hpk]
        exact Nat.le_succ_of_le ih
      · rw [if_neg hpk]
        exact ih
    · rw [if_neg hp]
      show (if p.1 = k then countKey (delEntry rest k') k + 1
          else countKey (delEntry rest k') k) ≤
        (if p.1 = k then countKey rest k + 1 else countKey rest k)
      by_cases hpk : p.1 = k
      · rw [if_pos hpk, if_pos hpk]
        exact Nat.add_le_add_right ih 1
      · rw [if_neg hpk, if_neg hpk]
        exact ih

theorem delEntry_eq_of_hasEntry_false {α : Type} (m : List (String × α)) (k : String)
    (h : hasEntry m k = false) : delEntry m k = m := by
  induction m with
  | nil => rfl
  | cons p rest ih =>
    by_cases hp : p.1 = k
    · simp [hasEntry, hp] at h
    · simp [hasEntry, hp] at h
      simp [delEntry, hp, ih h]

/-- C3 counterexample: user C (session on its own socket) and user B are
both registered but no pairing between them ever existed; C's `end_chat`
naming B nevertheless emits a `chat_ended` to B's socket, so ending a
nonexistent pairing is not a no-op as the claim states. -/
def traceTwoUsers : List Event :=
  [Event.register sockC uC 0, Event.register sockB uB 1]

theorem C3_end_chat_not_noop_counterexample :
    (stepW (runFrom World.initial traceTwoUsers)
        (Event.end_chat sockC (some uB) (some reasonUserLeft))).2 =
      [OutEvent.chatEnded sockB (some reasonUserLeft)] := by
  decide

def traceOneUser : List Event :=
  [Event.register sockC uC 0]

/-- C3 amended: `end_chat` never signals an error, but it is a no-op only
when the named partner is not registered and neither the caller nor the
named partner holds any Active Pairing Table entry; in that case no state
changes and no notification is emitted. (Otherwise the handler still
deletes the entries keyed by the caller and the named partner and notifies
the partner's socket whenever the partner is registered.) -/
theorem C3_end_chat_noop_conditions (w : World) (sock u p : String)
    (reason : Option String) (hses : getEntry w.sessions sock = some u)
    (hu : u ≠ "") (hp : p ≠ "") (hpu : hasEntry w.st.users p = false)
    (hcu : hasEntry w.st.activeChats u = false)
    (hcp : hasEntry w.st.activeChats p = false) :
    stepW w (Event.end_chat sock (some p) reason) = (w, []) := by
  rw [stepW_end_chat_main w sock u p reason hses hu hp,
    delEntry_eq_of_hasEntry_false w.st.activeChats u hcu,
    delEntry_eq_of_hasEntry_false w.st.activeChats p hcp,
    getEntry_eq_none_of_hasEntry_false w.st.users p hpu]

theorem C3_end_chat_noop_conditions_witness :
    stepW (runFrom World.initial traceOneUser)
        (Event.end_chat sockC (some uZ) (some reasonUserLeft)) =
      (runFrom World.initial traceOneUser, []) :=
  C3_end_chat_noop_conditions (runFrom World.initial traceOneUser) sockC uC uZ
    (some reasonUserLeft) (by decide) (by decide) (by decide) (by decide)
    (by decide) (by decide)

/-- C4: when a session whose user holds a pairing disconnects and the
partner is still registered (under a different id), the handler emits
exactly one `chat_ended` with reason "disconnected" to the partner's
socket, and both directed pairing entries are removed. -/
theorem C4_disconnect_notifies_partner (w : World) (sock u p : String) (pe : UserEntry)
    (hses : getEntry w.sessions sock = some u) (hu : u ≠ "")
    (hpair : getEntry w.st.activeChats u = some p) (hp : p ≠ u) (hpne : p ≠ "")
    (hpreg : getEntry w.st.users p = some pe) :
    (stepW w (Event.disconnect sock)).2 =
        [OutEvent.chatEnded pe.socketId (some reasonDisconnected)] ∧
      getEntry (stepW w (Event.disconnect sock)).1.st.activeChats u = none ∧
      getEntry (stepW w (Event.disconnect sock)).1.st.activeChats p = none := by
  rw [stepW_disconnect_paired w sock u p hses hu hpair hpne]
  have hlook : getEntry (delEntry w.st.users u) p = some pe := by
    rw [getEntry_delEntry_ne w.st.users u p hp]
    exact hpreg
  refine ⟨?_, ?_, ?_⟩
  · simp [hlook]
  · rw [getEntry_delEntry_ne _ p u (Ne.symm hp), getEntry_delEntry_self]
  · rw [getEntry_delEntry_self]

theorem C4_disconnect_notifies_partner_witness :
    (stepW (runFrom World.initial tracePair) (Event.disconnect sockA)).2 =
        [OutEvent.chatEnded sockB (some reasonDisconnected)] ∧
      getEntry (stepW (runFrom World.initial tracePair)
          (Event.disconnect sockA)).1.st.activeChats uA = none ∧
      getEntry (stepW (runFrom World.initial tracePair)
          (Event.disconnect sockA)).1.st.activeChats uB = none :=
  C4_disconnect_notifies_partner (runFrom World.initial tracePair) sockA uA uB
    ⟨sockB, 1⟩ (by decide) (by decide) (by decide) (by decide) (by decide) (by decide)

/-- C5 counterexample: user A is registered, unpaired and already in the
Waiting Queue; a second `find_match` is acknowledged with success — the
code answers `{success: true}` and overwrites the entry, it does not
reject the duplicate request as the claim states. -/
theorem C5_second_find_match_accepted_counterexample :
    (stepW (runFrom World.initial traceWaiting)
        (Event.find_match sockA uA none 2)).2 =
      [OutEvent.callbackOk sockA] := by
  decide

/-- C5 amended: a `find_match` from a registered, unpaired user who is
already waiting is accepted (the first output is the success callback), and
it does not duplicate the queue entry: the entry count for that user does
not grow (the entry is overwritten in place — afterwards the user's entry
is the fresh one, unless the retry got the user matched and dequeued). -/
theorem C5_rewaiting_overwrites (w : World) (sock u : String)
    (prefs : Option Preferences) (now : Nat) (h1 : u ≠ "")
    (h2 : hasEntry w.st.users u = true) (h3 : hasEntry w.st.activeChats u = false)
    (h4 : hasEntry w.st.waitingUsers u = true) :
    (stepW w (Event.find_match sock u prefs now)).2.head? =
        some (OutEvent.callbackOk sock) ∧
      (getEntry (stepW w (Event.find_match sock u prefs now)).1.st.waitingUsers u =
          some ⟨sock, prefs, now⟩ ∨
        hasEntry (stepW w (Event.find_match sock u prefs now)).1.st.waitingUsers u =
          false) ∧
      countKey (stepW w (Event.find_match sock u prefs now)).1.st.waitingUsers u ≤
        countKey w.st.waitingUsers u := by
  rw [stepW_find_match_main w sock u prefs now h1 h2 h3]
  rcases findMatch_cases u
      ⟨w.st.users, setEntry w.st.waitingUsers u ⟨sock, prefs, now⟩,
        w.st.activeChats⟩ with hsame | ⟨mp, hmem, hne, hchat, heq⟩
  · refine ⟨rfl, ?_, ?_⟩
    · rw [hsame]
      exact Or.inl (getEntry_setEntry_self w.st.waitingUsers u ⟨sock, prefs, now⟩)
    · rw [hsame]
      rw [countKey_setEntry_of_hasEntry w.st.waitingUsers u ⟨sock, prefs, now⟩ h4]
  · refine ⟨rfl, ?_, ?_⟩
    · rw [heq]
      right
      rw [hasEntry_delEntry_ne _ mp.1 u (Ne.symm hne), hasEntry_delEntry_self]
    · rw [heq]
      have hz : countKey (delEntry (setEntry w.st.waitingUsers u
          ⟨sock, prefs, now⟩) u) u = 0 := countKey_delEntry_self _ u
      have hle := countKey_delEntry_le (delEntry (setEntry w.st.waitingUsers u
          ⟨sock, prefs, now⟩) u) mp.1 u
      rw [hz] at hle
      exact Nat.le_trans hle (Nat.zero_le _)

theorem C5_rewaiting_overwrites_witness :
    (stepW (runFrom World.initial traceWaiting)
          (Event.find_match sockA uA none 2)).2.head? =
        some (OutEvent.callbackOk sockA) ∧
      (getEntry (stepW (runFrom World.initial traceWaiting)
            (Event.find_match sockA uA none 2)).1.st.waitingUsers uA =
          some ⟨sockA, none, 2⟩ ∨
        hasEntry (stepW (runFrom World.initial traceWaiting)
            (Event.find_match sockA uA none 2)).1.st.waitingUsers uA = false) ∧
      countKey (stepW (runFrom World.initial traceWaiting)
            (Event.find_match sockA uA none 2)).1.st.waitingUsers uA ≤
        countKey (runFrom World.initial traceWaiting).st.waitingUsers uA :=
  C5_rewaiting_overwrites (runFrom World.initial traceWaiting) sockA uA none 2
    (by decide) (by decide) (by decide) (by decide)

theorem findMatch_of_find?_none (u : String) (s : ServerState) (cu : WaitingEntry)
    (hcu : getEntry s.waitingUsers u = some cu)
    (hf : (s.waitingUsers.filter (fun p => decide (p.1 ≠ u))).find?
        (eligibleCandidate s cu) = none) :
    findMatch u s = ⟨s, [], MatchOutcome.noEligibleCandidates⟩ := by
  unfold findMatch
  rw [hcu]
  by_cases he : (s.waitingUsers.filter (fun p => decide (p.1 ≠ u))).isEmpty
  · simp only [he, if_true]
  · simp only [he, if_false, hf]
    split
    next => rfl
    next => rfl

/-- C7: a match attempt whose requester filters for attribute "male",
scanned against a Waiting Queue in which every other entry carries
attribute "female", finds no eligible candidate: the attempt returns the
no-eligible-candidates outcome, the registries are unchanged (so no pairing
is created), and the requester's WaitingEntry is still present. -/
theorem C7_gender_filter_no_match (s : ServerState) (u : String) (cu : WaitingEntry)
    (hcu : getEntry s.waitingUsers u = some cu)
    (hpg : reqPreferredGender cu = some genderMale)
    (hpool : ∀ p ∈ s.waitingUsers, p.1 ≠ u → candGender p.2 = some genderFemale) :
    findMatch u s = ⟨s, [], MatchOutcome.noEligibleCandidates⟩ ∧
      getEntry (findMatch u s).st.waitingUsers u = some cu := by
  have hf : (s.waitingUsers.filter (fun p => decide (p.1 ≠ u))).find?
      (eligibleCandidate s cu) = none := by
    rw [List.find?_eq_none]
    intro x hx
    rcases List.mem_filter.mp hx with ⟨hx1, hx2⟩
    have hxne : x.1 ≠ u := by simpa using hx2
    have hg := hpool x hx1 hxne
    have hgf : genderFilterPasses cu x.2 = false := by
      unfold genderFilterPasses
      rw [hpg, hg]
      simp [genderMale, genderFemale, wildcard]
    simp [eligibleCandidate, hgf]
  have heq := findMatch_of_find?_none u s cu hcu hf
  refine ⟨heq, ?_⟩
  rw [heq]
  exact hcu

def prefMale : Preferences := { preferred_gender := some genderMale }
def prefFemale : Preferences := { gender := some genderFemale }

/-- A queue holding one "female" candidate (user C) and the requester
(user A) who filters for "male". -/
def stateC7 : ServerState :=
  ⟨[(uC, ⟨sockC, 0⟩), (uA, ⟨sockA, 0⟩)],
    [(uC, ⟨sockC, some prefFemale, 0⟩), (uA, ⟨sockA, some prefMale, 1⟩)], []⟩

theorem C7_gender_filter_no_match_witness :
    findMatch uA stateC7 = ⟨stateC7, [], MatchOutcome.noEligibleCandidates⟩ ∧
      getEntry (findMatch uA stateC7).st.waitingUsers uA =
        some ⟨sockA, some prefMale, 1⟩ :=
  C7_gender_filter_no_match stateC7 uA ⟨sockA, some prefMale, 1⟩ (by decide)
    (by decide) (by decide)

/-- C8: two distinct registered users A and B on distinct sockets each
issue `find_match` with wildcard (absent) preferences while the queue is
otherwise empty; exactly one pairing {A,B} results — precisely the two
directed entries B→A and A→B — both sockets receive `match_found` carrying
the other user's id, and the Waiting Queue ends empty. -/
theorem C8_wildcard_pairing (a b sa sb : String) (ha : a ≠ "") (hb : b ≠ "")
    (hab : a ≠ b) (hs : sa ≠ sb) :
    runEvents World.initial
        [Event.register sa a 0, Event.register sb b 1,
          Event.find_match sa a none 2, Event.find_match sb b none 3] =
      (⟨⟨[(a, ⟨sa, 0⟩), (b, ⟨sb, 1⟩)], [], [(b, a), (a, b)]⟩, [(sa, a), (sb, b)]⟩,
        [OutEvent.callbackOk sa, OutEvent.callbackOk sb, OutEvent.callbackOk sa,
          OutEvent.callbackOk sb, OutEvent.matchFound sb a,
          OutEvent.matchFound sa b]) := by
  have hba : ¬ (b = a) := fun h => hab h.symm
  simp [runEvents, stepW, findMatch, setEntry, getEntry, hasEntry, delEntry,
    eligibleCandidate, genderFilterPasses, interestFilterPasses, reqPreferredGender,
    candGender, entryInterests, truthyStr, World.initial, ha, hb, hab, hba, hs]

theorem C8_wildcard_pairing_witness :
    runEvents World.initial
        [Event.register sockA uA 0, Event.register sockB uB 1,
          Event.find_match sockA uA none 2, Event.find_match sockB uB none 3] =
      (⟨⟨[(uA, ⟨sockA, 0⟩), (uB, ⟨sockB, 1⟩)], [], [(uB, uA), (uA, uB)]⟩,
          [(sockA, uA), (sockB, uB)]⟩,
        [OutEvent.callbackOk sockA, OutEvent.callbackOk sockB,
          OutEvent.callbackOk sockA, OutEvent.callbackOk sockB,
          OutEvent.matchFound sockB uA, OutEvent.matchFound sockA uB]) :=
  C8_wildcard_pairing uA uB sockA sockB (by decide) (by decide) (by decide) (by decide)

/-- C9: for an `end_chat` from a session with a registered (non-empty)
user id naming any non-empty partner id, the handler — with no check that
a pairing between the two exists — deletes the Active Pairing Table
entries keyed by the caller and by the named partner, and emits
`chat_ended` to the partner's socket exactly when the partner has a
Presence Registry entry; users, waiting queue and sessions are untouched. -/
theorem C9_end_chat_unconditional (w : World) (sock u p : String)
    (reason : Option String) (hses : getEntry w.sessions sock = some u)
    (hu : u ≠ "") (hreg : hasEntry w.st.users u = true) (hp : p ≠ "") :
    stepW w (Event.end_chat sock (some p) reason) =
      (⟨⟨w.st.users, w.st.waitingUsers, delEntry (delEntry w.st.activeChats u) p⟩,
        w.sessions⟩,
        match getEntry w.st.users p with
        | some e => [OutEvent.chatEnded e.socketId reason]
        | none => []) :=
  stepW_end_chat_main w sock u p reason hses hu hp

theorem C9_end_chat_unconditional_witness :
    stepW (runFrom World.initial tracePair)
        (Event.end_chat sockA (some uC) (some reasonUserLeft)) =
      (⟨⟨(runFrom World.initial tracePair).st.users,
          (runFrom World.initial tracePair).st.waitingUsers,
          delEntry (delEntry (runFrom World.initial tracePair).st.activeChats uA) uC⟩,
        (runFrom World.initial tracePair).sessions⟩,
        match getEntry (runFrom World.initial tracePair).st.users uC with
        | some e => [OutEvent.chatEnded e.socketId (some reasonUserLeft)]
        | none => []) :=
  C9_end_chat_unconditional (runFrom World.initial tracePair) sockA uA uC
    (some reasonUserLeft) (by decide) (by decide) (by decide) (by decide)

/-- C10: when a socket disconnects whose session remembers user u, while u
has meanwhile re-registered on a different socket (the Presence entry's
socket differs from the closing one), the handler still deletes u's
Presence entry and Waiting entry — cleanup is keyed by the session's
remembered user id, not by a reverse lookup of the closing socket, so the
newer registration is removed by the old connection's disconnect. -/
theorem C10_disconnect_stale_session (w : World) (s1 s2 u : String) (e : UserEntry)
    (hses : getEntry w.sessions s1 = some u) (hu : u ≠ "")
    (hreg : getEntry w.st.users u = some e) (hnew : e.socketId = s2)
    (hdiff : s1 ≠ s2) :
    hasEntry (stepW w (Event.disconnect s1)).1.st.users u = false ∧
      hasEntry (stepW w (Event.disconnect s1)).1.st.waitingUsers u = false := by
  cases hpid : getEntry w.st.activeChats u with
  | none =>
    rw [stepW_disconnect_unpaired w s1 u hses hu hpid]
    exact ⟨hasEntry_delEntry_self _ _, hasEntry_delEntry_self _ _⟩
  | some pid =>
    by_cases hpe : pid = ""
    · subst hpe
      rw [stepW_disconnect_emptyPartner w s1 u hses hu hpid]
      exact ⟨hasEntry_delEntry_self _ _, hasEntry_delEntry_self _ _⟩
    · rw [stepW_disconnect_paired w s1 u pid hses hu hpid hpe]
      exact ⟨hasEntry_delEntry_self _ _, hasEntry_delEntry_self _ _⟩

/-- User A registers on socket sA, then re-registers on socket sB. -/
def traceRereg : List Event :=
  [Event.register sockA uA 0, Event.register sockB uA 1]

theorem C10_disconnect_stale_session_witness :
    hasEntry (stepW (runFrom World.initial traceRereg)
        (Event.disconnect sockA)).1.st.users uA = false ∧
      hasEntry (stepW (runFrom World.initial traceRereg)
          (Event.disconnect sockA)).1.st.waitingUsers uA = false :=
  C10_disconnect_stale_session (runFrom World.initial traceRereg) sockA sockB uA
    ⟨sockB, 1⟩ (by decide) (by decide) (by decide) (by decide) (by decide)
